import Mathlib

/-! Overview:
Verification of the Steam library discovery and formatting code in
`src/utils/steam-library.ts` (repository `steam-warmind`).

The TypeScript source is shallowly embedded: filesystem, registry and
platform queries become an explicit `Env` record of read-only functions
(`Option`-valued where the underlying call can throw), the regular
expressions used by the source become executable first-match scanners
over `List Char`, and JavaScript numbers become `Nat`/`Int` (the values
involved — app ids, byte sizes, epoch timestamps — are far below 2^53,
where JavaScript number arithmetic is exact).
-/

namespace SteamWarmind

/-- Whitespace class used to model the `\s` regex class and
`String.prototype.trim`, restricted to the ASCII whitespace characters
that occur in VDF manifests and command output. -/
def isJsSpace (c : Char) : Bool :=
  c = ' ' || c = '\t' || c = '\n' || c = '\r' || c = '\x0b' || c = '\x0c'

/-- Model of `String.prototype.trim`: drop leading and trailing whitespace. -/
def jsTrim (s : String) : String :=
  String.mk (((s.data.dropWhile isJsSpace).reverse.dropWhile isJsSpace).reverse)

/-- Model of Node `path.join` for two plain segments on Windows: the
segments are concatenated with a single backslash (no normalization is
needed for the segment shapes the source joins). -/
def joinP (a b : String) : String :=
  a ++ "\\" ++ b

/-- Strip an expected literal prefix from a character list, returning the
remainder on success. -/
def stripPrefixList : List Char → List Char → Option (List Char)
  | [], cs => some cs
  | _ :: _, [] => none
  | p :: ps, c :: cs => if p = c then stripPrefixList ps cs else none

/-- Value of a digit string under `parseInt(s, 10)` for an all-digit
string (the only shape the source feeds to `parseInt`, since the captures
come from `\d+`). -/
def digitsToNat (ds : List Char) : Nat :=
  ds.foldl (fun n c => n * 10 + (c.toNat - 48)) 0

/-- Attempt to match the regex `"<key>"\s+"(<pred>+)"` at the head of
`cs` (the pattern shape of every field regex in the source, with
`pred` either `[^"]` or `\d`).  Returns the capture and the remainder
after the whole match.  Greedy matching with backtracking coincides with
taking the maximal `pred`-run followed by a closing quote, because
shrinking the run always leaves a next character that still satisfies
`pred` and hence is not the required quote. -/
def matchKVAt (key : List Char) (pred : Char → Bool) (cs : List Char) :
    Option (List Char × List Char) :=
  match stripPrefixList ('"' :: (key ++ ['"'])) cs with
  | none => none
  | some rest =>
    let ws := rest.takeWhile isJsSpace
    let rest1 := rest.dropWhile isJsSpace
    if ws = [] then none
    else
      match rest1 with
      | '"' :: rest2 =>
        let cap := rest2.takeWhile pred
        let rest3 := rest2.dropWhile pred
        if cap = [] then none
        else
          match rest3 with
          | '"' :: rest4 => some (cap, rest4)
          | _ => none
      | _ => none

/-- Model of `content.match(regex)` for the field regexes: scan left to
right and return the capture of the leftmost match. -/
def firstKVMatch (key : List Char) (pred : Char → Bool) : List Char → Option (List Char)
  | [] => none
  | c :: cs =>
    match matchKVAt key pred (c :: cs) with
    | some (cap, _) => some cap
    | none => firstKVMatch key pred cs

/-- Model of `content.match(regex_with_g_flag)` for the field regexes:
successive leftmost non-overlapping matches, each contributing its
capture.  `fuel` bounds the recursion; `cs.length` always suffices since
every step consumes at least one character. -/
def allKVMatchesAux (fuel : Nat) (key : List Char) (pred : Char → Bool)
    (cs : List Char) : List (List Char) :=
  match fuel with
  | 0 => []
  | fuel + 1 =>
    match cs with
    | [] => []
    | c :: cs1 =>
      match matchKVAt key pred (c :: cs1) with
      | some (cap, rest) => cap :: allKVMatchesAux fuel key pred rest
      | none => allKVMatchesAux fuel key pred cs1

/-- All captures of the global field regex over `cs`. -/
def allKVMatches (key : List Char) (pred : Char → Bool) (cs : List Char) :
    List (List Char) :=
  allKVMatchesAux cs.length key pred cs

/-- Attempt to match `appmanifest_(\d+)\.acf` at the head of `cs`,
returning the digit capture. -/
def matchManifestAt (cs : List Char) : Option (List Char) :=
  match stripPrefixList ("appmanifest_".data) cs with
  | none => none
  | some rest =>
    let ds := rest.takeWhile Char.isDigit
    let rest1 := rest.dropWhile Char.isDigit
    if ds = [] then none
    else
      match stripPrefixList (".acf".data) rest1 with
      | some _ => some ds
      | none => none

/-- Leftmost match of `appmanifest_(\d+)\.acf` over a character list. -/
def filenameDigitsAux : List Char → Option (List Char)
  | [] => none
  | c :: cs =>
    match matchManifestAt (c :: cs) with
    | some ds => some ds
    | none => filenameDigitsAux cs

/-- Model of `manifestFile.match(/appmanifest_(\d+)\.acf/)` followed by
`parseInt` on the capture. -/
def filenameAppid (file : String) : Option Nat :=
  (filenameDigitsAux file.data).map digitsToNat

/-- Model of `String.prototype.startsWith`. -/
def jsStartsWith (s pre : String) : Bool :=
  pre.data.isPrefixOf s.data

/-- Model of `String.prototype.endsWith`. -/
def jsEndsWith (s suf : String) : Bool :=
  suf.data.isSuffixOf s.data

/-- Installed game record, mirroring the `SteamGame` interface of the
source (optional fields become `Option`). -/
structure SteamGame where
  appid : Nat
  name : String
  installDir : String
  sizeOnDisk : Nat
  lastUpdated : Option Nat
  state : Option Nat
deriving DecidableEq, Repr

/-- Aggregate result record, mirroring the `SteamLibraryInfo` interface. -/
structure SteamLibraryInfo where
  games : List SteamGame
  totalSize : Nat
  gameCount : Nat
deriving DecidableEq, Repr

/-- Read-only host environment the source interacts with: the platform
name, the registry query issued through PowerShell (keyed by the registry
path, which is the varying part of the command; `none` models a command
that throws), and the filesystem primitives (`none` models a thrown
read error). -/
structure Env where
  platform : String
  execInstallPath : String → Option String
  readFile : String → Option String
  readdir : String → Option (List String)
  existsSync : String → Bool

/-- Registry path checked first (32-bit compatibility key). -/
def wowKey : String := "HKLM:\\SOFTWARE\\WOW6432Node\\Valve\\Steam"

/-- Registry path checked second (native key). -/
def nativeKey : String := "HKLM:\\SOFTWARE\\Valve\\Steam"

/-- The two registry paths, in the order the source iterates them. -/
def registryPaths : List String := [wowKey, nativeKey]

/-- One iteration of the registry loop in `getSteamPath`: run the query
(the inner `catch` turns a throwing command into no result), trim the
output, and accept it only when it is non-empty and exists on disk. -/
def tryKey (env : Env) (key : String) : Option String :=
  match env.execInstallPath key with
  | none => none
  | some stdout =>
    let steamPath := jsTrim stdout
    if steamPath ≠ "" ∧ env.existsSync steamPath = true then some steamPath else none

/-- The registry loop of `getSteamPath`: first key that resolves wins;
`none` when the loop falls through. -/
def firstResolvedKey (env : Env) : List String → Option String
  | [] => none
  | k :: ks =>
    match tryKey env k with
    | some p => some p
    | none => firstResolvedKey env ks

/-- Model of `getSteamPath`.  On a non-Windows platform the function
throws before entering its `try` block; on Windows nothing inside the
outer `try` can escape (each registry query sits in an inner `catch`),
so the result is `ok` with the loop outcome. -/
def getSteamPath (env : Env) : Except String (Option String) :=
  if env.platform ≠ "win32" then
    .error "Steam library browsing is only supported on Windows"
  else
    .ok (firstResolvedKey env registryPaths)

/-- Character predicate for the `[^"]` regex class. -/
def notQuote (c : Char) : Bool := c ≠ '"'

/-- Model of `getSteamLibraryPaths`: read `libraryfolders.vdf`, collect
every `"path" "<value>"` capture that exists on disk, always keeping the
base path first; a missing or unreadable descriptor degrades to
`[steamPath]`. -/
def getSteamLibraryPaths (env : Env) (steamPath : String) : List String :=
  let libraryFoldersPath := joinP (joinP steamPath "steamapps") "libraryfolders.vdf"
  if env.existsSync libraryFoldersPath = false then [steamPath]
  else
    match env.readFile libraryFoldersPath with
    | none => [steamPath]
    | some content =>
      let captured := (allKVMatches "path".data notQuote content.data).map String.mk
      steamPath :: captured.filter (fun p => (p != "") && env.existsSync p)

/-- Model of one iteration of the manifest loop in `parseAppManifests`:
`none` both for a skipped file (missing, unreadable, bad filename,
reserved id, required field absent) and mirrors the per-file `catch`. -/
def parseManifestFile (env : Env) (libraryPath steamappsPath : String)
    (manifestFile : String) : Option SteamGame :=
  let manifestPath := joinP steamappsPath manifestFile
  if env.existsSync manifestPath = false then none
  else
    match env.readFile manifestPath with
    | none => none
    | some content =>
      match filenameAppid manifestFile with
      | none => none
      | some appid =>
        if appid = 228980 ∨ appid = 7 then none
        else
          let nameMatch := firstKVMatch "name".data notQuote content.data
          let installDirMatch := firstKVMatch "installdir".data notQuote content.data
          let sizeMatch := firstKVMatch "SizeOnDisk".data Char.isDigit content.data
          let lastUpdatedMatch := firstKVMatch "LastUpdated".data Char.isDigit content.data
          let stateMatch := firstKVMatch "StateFlags".data Char.isDigit content.data
          match nameMatch, installDirMatch with
          | some nm, some dir =>
            some { appid := appid
                   name := String.mk nm
                   installDir :=
                     joinP (joinP (joinP libraryPath "steamapps") "common") (String.mk dir)
                   sizeOnDisk := match sizeMatch with | some ds => digitsToNat ds | none => 0
                   lastUpdated := lastUpdatedMatch.map digitsToNat
                   state := stateMatch.map digitsToNat }
          | _, _ => none

/-- Filename filter used before the manifest loop. -/
def isManifestName (f : String) : Bool :=
  jsStartsWith f "appmanifest_" && jsEndsWith f ".acf"

/-- The manifest loop of `parseAppManifests` over an explicit file list. -/
def parseManifestFiles (env : Env) (libraryPath steamappsPath : String)
    (files : List String) : List SteamGame :=
  files.filterMap (parseManifestFile env libraryPath steamappsPath)

/-- Model of `parseAppManifests`: list `libraryPath/steamapps`, keep the
`appmanifest_*.acf` entries and run the manifest loop; a missing
directory or failing `readdir` yields the empty list. -/
def parseAppManifests (env : Env) (libraryPath : String) : List SteamGame :=
  let steamappsPath := joinP libraryPath "steamapps"
  if env.existsSync steamappsPath = false then []
  else
    match env.readdir steamappsPath with
    | none => []
    | some files =>
      parseManifestFiles env libraryPath steamappsPath (files.filter isManifestName)

/-- Case-folded character data of a string. -/
def lowerData (s : String) : List Char := s.data.map Char.toLower

/-- Lexicographic comparison of character lists by code point. -/
def cmpChars : List Char → List Char → Ordering
  | [], [] => .eq
  | [], _ :: _ => .lt
  | _ :: _, [] => .gt
  | a :: as, b :: bs =>
    if a < b then .lt
    else if b < a then .gt
    else cmpChars as bs

/-- Case tiebreak between two strings whose case-folded data agree:
at the first differing character the lowercase variant (the higher code
point for ASCII letters) sorts first. -/
def cmpCase : List Char → List Char → Ordering
  | [], [] => .eq
  | [], _ :: _ => .lt
  | _ :: _, [] => .gt
  | a :: as, b :: bs =>
    if a = b then cmpCase as bs
    else if b < a then .lt
    else .gt

/-- Comparison underlying `localeCompare`. -/
def lcOrd (a b : String) : Ordering :=
  match cmpChars (lowerData a) (lowerData b) with
  | .eq => cmpCase a.data b.data
  | o => o

/-- Model of `String.prototype.localeCompare` under the default ICU
collation, restricted to the ASCII range: primary strength compares
case-folded code points; when the case-folded strings agree the case
difference decides, lowercase sorting first. -/
def localeCompare (a b : String) : Int :=
  match lcOrd a b with
  | .lt => -1
  | .eq => 0
  | .gt => 1

/-- Sort relation used by the aggregator: comparator result at most 0. -/
def byNameLe (a b : SteamGame) : Prop := localeCompare a.name b.name ≤ 0

instance : DecidableRel byNameLe :=
  fun a b => inferInstanceAs (Decidable (localeCompare a.name b.name ≤ 0))

/-- Model of
`allGames.filter((game, index, self) => index === self.findIndex((g) => g.appid === game.appid))`:
the element at each index survives exactly when `findIndex` of its appid
over the whole list returns that index. -/
def dedupByAppid (l : List SteamGame) : List SteamGame :=
  (l.enum.filter (fun p => l.findIdx (fun g => g.appid == p.2.appid) == p.1)).map Prod.snd

/-- Concatenation of the per-library scan results in enumeration order
(base path first), as built by the aggregation loop. -/
def allGamesFor (env : Env) (steamPath : String) : List SteamGame :=
  ((getSteamLibraryPaths env steamPath).map (parseAppManifests env)).flatten

/-- Model of `getInstalledSteamGames`.  The two `throw` sites are the
only error paths: the platform error propagates out of `getSteamPath`
through the re-throwing outer `catch`, and a `null` installation path
raises the not-found error; every other failure was already absorbed
inside the helpers.  `Array.prototype.sort` with the `localeCompare`
comparator is modeled by stable insertion sort, which yields the same
list as any stable comparison sort. -/
def getInstalledSteamGames (env : Env) : Except String SteamLibraryInfo :=
  match getSteamPath env with
  | .error e => .error e
  | .ok none => .error "Steam installation not found"
  | .ok (some steamPath) =>
    let allGames := allGamesFor env steamPath
    let uniqueGames := List.insertionSort byNameLe (dedupByAppid allGames)
    let totalSize := uniqueGames.foldl (fun sum g => sum + g.sizeOnDisk) 0
    .ok { games := uniqueGames, totalSize := totalSize, gameCount := uniqueGames.length }

/-- Unit table of `formatFileSize`. -/
def sizeUnits : List String := ["B", "KB", "MB", "GB", "TB"]

/-- Floor of the base-1024 logarithm, the exact value of
`Math.floor(Math.log(bytes) / Math.log(1024))` in real arithmetic
(double rounding in the JavaScript evaluation is abstracted away).
`fuel` bounds the recursion; `bytes` itself always suffices. -/
def log1024 (fuel bytes : Nat) : Nat :=
  match fuel with
  | 0 => 0
  | fuel + 1 => if bytes < 1024 then 0 else log1024 fuel (bytes / 1024) + 1

/-- Decimal rendering of `n / 100` as JavaScript prints the resulting
number: an integer when the fraction vanishes, otherwise one or two
fractional digits with trailing zeros dropped. -/
def printHundredths (n : Nat) : String :=
  if n % 100 = 0 then toString (n / 100)
  else if n % 10 = 0 then toString (n / 100) ++ "." ++ toString (n / 10 % 10)
  else toString (n / 100) ++ "." ++ toString (n % 100 / 10) ++ toString (n % 10)

/-- Model of `formatFileSize`.  `Math.round(x)` for nonnegative `x` is
`⌊x + 1/2⌋`, so `Math.round((bytes / 1024^i) * 100)` is
`(200 * bytes + 1024^i) / (2 * 1024^i)` in exact arithmetic.  Indexing
`sizes[i]` past the end of the array yields `undefined`, which string
concatenation renders as `"undefined"`. -/
def formatFileSize (bytes : Nat) : String :=
  if bytes = 0 then "0 B"
  else
    let i := log1024 bytes bytes
    let p := 1024 ^ i
    let rounded := (200 * bytes + p) / (2 * p)
    printHundredths rounded ++ " " ++ (sizeUnits.getD i "undefined")

/-- Model of `formatLastUpdated`.  `Date.now()` is an integer count of
milliseconds, so with `nowMs` in milliseconds and the timestamp in
seconds the day difference
`Math.floor((Date.now() / 1000 - timestamp) / 86400)` equals
`(nowMs - 1000 * timestamp).fdiv 86400000` exactly (`Math.floor`
division of integers is flooring division). -/
def formatLastUpdated (nowMs timestamp : Int) : String :=
  let days := (nowMs - 1000 * timestamp).fdiv 86400000
  if days = 0 then "Today"
  else if days = 1 then "Yesterday"
  else if days < 7 then toString days ++ " days ago"
  else if days < 30 then toString (days.fdiv 7) ++ " weeks ago"
  else toString (days.fdiv 30) ++ " months ago"

/-! Section: Specification-side vocabulary and proof-side reformulations -/

/-- Recursive reformulation of the first-occurrence filter: `seen`
accumulates the app ids of all elements already passed (kept or not).
Proved equal to `dedupByAppid` below; used to reason about it. -/
def dedupSeen (seen : List Nat) : List SteamGame → List SteamGame
  | [] => []
  | g :: gs =>
    if g.appid ∈ seen then dedupSeen (seen ++ [g.appid]) gs
    else g :: dedupSeen (seen ++ [g.appid]) gs

/-- Case-insensitive lexicographic order on strings: the case-folded
data of `a` is lexicographically no greater than that of `b`. -/
def caseInsensitiveLe (a b : String) : Prop :=
  cmpChars (lowerData a) (lowerData b) ≠ .gt

/-- Spec-side reading of a registry key resolving: the query succeeds,
its trimmed output is non-empty, and that output exists on disk. -/
def keyResolves (env : Env) (key : String) : Prop :=
  ∃ stdout, env.execInstallPath key = some stdout ∧
    jsTrim stdout ≠ "" ∧ env.existsSync (jsTrim stdout) = true

/-- Spec-side reading of leftmost-match extraction: the field regex for
`key` matches at offset `n` with capture `v`, and at no earlier offset. -/
def LeftmostCapture (key : List Char) (pred : Char → Bool) (cs v : List Char) : Prop :=
  ∃ n rest, matchKVAt key pred (cs.drop n) = some (v, rest) ∧
    ∀ m, m < n → matchKVAt key pred (cs.drop m) = none

/-! Section: Concrete environments used by witnesses and counterexamples -/

/-- Environment on a non-Windows host. -/
def envLinux : Env :=
  { platform := "linux"
    execInstallPath := fun _ => none
    readFile := fun _ => none
    readdir := fun _ => none
    existsSync := fun _ => false }

/-- Windows environment with a base library holding `appmanifest_570.acf`
and a second library holding its duplicate plus `appmanifest_440.acf`. -/
def envFull : Env :=
  { platform := "win32"
    execInstallPath := fun k => if k = wowKey then some "C:\\Steam\r\n" else none
    readFile := fun p =>
      if p = "C:\\Steam\\steamapps\\libraryfolders.vdf" then
        some "\"path\" \"D:\\SteamLibrary\""
      else if p = "C:\\Steam\\steamapps\\appmanifest_570.acf" then
        some "\"name\" \"Dota 2\"\n\"installdir\" \"dota 2 beta\"\n\"SizeOnDisk\" \"100\""
      else if p = "D:\\SteamLibrary\\steamapps\\appmanifest_570.acf" then
        some "\"name\" \"Dota 2 COPY\"\n\"installdir\" \"dupe\"\n\"SizeOnDisk\" \"999\""
      else if p = "D:\\SteamLibrary\\steamapps\\appmanifest_440.acf" then
        some "\"name\" \"Team Fortress 2\"\n\"installdir\" \"tf2\""
      else none
    readdir := fun p =>
      if p = "C:\\Steam\\steamapps" then some ["appmanifest_570.acf"]
      else if p = "D:\\SteamLibrary\\steamapps" then
        some ["appmanifest_440.acf", "appmanifest_570.acf"]
      else none
    existsSync := fun p =>
      p = "C:\\Steam" || p = "C:\\Steam\\steamapps\\libraryfolders.vdf" ||
      p = "D:\\SteamLibrary" || p = "C:\\Steam\\steamapps" ||
      p = "D:\\SteamLibrary\\steamapps" ||
      p = "C:\\Steam\\steamapps\\appmanifest_570.acf" ||
      p = "D:\\SteamLibrary\\steamapps\\appmanifest_570.acf" ||
      p = "D:\\SteamLibrary\\steamapps\\appmanifest_440.acf" }

/-- The game record produced from the base-library `appmanifest_570.acf`. -/
def game570 : SteamGame :=
  { appid := 570
    name := "Dota 2"
    installDir := "C:\\Steam\\steamapps\\common\\dota 2 beta"
    sizeOnDisk := 100
    lastUpdated := none
    state := none }

/-- The game record produced from `appmanifest_440.acf`. -/
def game440 : SteamGame :=
  { appid := 440
    name := "Team Fortress 2"
    installDir := "D:\\SteamLibrary\\steamapps\\common\\tf2"
    sizeOnDisk := 0
    lastUpdated := none
    state := none }

/-- Windows environment whose only manifest carries the reserved id 7
with both required fields present. -/
def envSeven : Env :=
  { platform := "win32"
    execInstallPath := fun _ => none
    readFile := fun p =>
      if p = "L\\steamapps\\appmanifest_7.acf" then
        some "\"name\" \"Steam Client\"\n\"installdir\" \"client\""
      else none
    readdir := fun p =>
      if p = "L\\steamapps" then some ["appmanifest_7.acf"] else none
    existsSync := fun p =>
      p = "L" || p = "L\\steamapps" || p = "L\\steamapps\\appmanifest_7.acf" }

/-- Windows environment whose manifest has a non-numeric `SizeOnDisk`
and no `LastUpdated` or `StateFlags`. -/
def envNonNumeric : Env :=
  { platform := "win32"
    execInstallPath := fun _ => none
    readFile := fun p =>
      if p = "L\\steamapps\\appmanifest_99.acf" then
        some "\"name\" \"Game X\"\n\"installdir\" \"gx\"\n\"SizeOnDisk\" \"abc\""
      else none
    readdir := fun p =>
      if p = "L\\steamapps" then some ["appmanifest_99.acf"] else none
    existsSync := fun p =>
      p = "L" || p = "L\\steamapps" || p = "L\\steamapps\\appmanifest_99.acf" }

/-- Windows environment whose manifest repeats the `name` field. -/
def envTwoNames : Env :=
  { platform := "win32"
    execInstallPath := fun _ => none
    readFile := fun p =>
      if p = "L\\steamapps\\appmanifest_50.acf" then
        some "\"name\" \"First\"\n\"name\" \"Second\"\n\"installdir\" \"one\"\n\"installdir\" \"two\""
      else none
    readdir := fun p =>
      if p = "L\\steamapps" then some ["appmanifest_50.acf"] else none
    existsSync := fun p =>
      p = "L" || p = "L\\steamapps" || p = "L\\steamapps\\appmanifest_50.acf" }

/-- The aggregate result over `envFull`. -/
def infoFull : SteamLibraryInfo :=
  { games := [game570, game440], totalSize := 100, gameCount := 2 }

/-- The game record produced from the `envNonNumeric` manifest. -/
def game99 : SteamGame :=
  { appid := 99
    name := "Game X"
    installDir := "L\\steamapps\\common\\gx"
    sizeOnDisk := 0
    lastUpdated := none
    state := none }

/-- The game record produced from the `envTwoNames` manifest. -/
def game50 : SteamGame :=
  { appid := 50
    name := "First"
    installDir := "L\\steamapps\\common\\one"
    sizeOnDisk := 0
    lastUpdated := none
    state := none }

/-! Section: Comparator lemmas -/

theorem cmpChars_eq_iff : ∀ x y : List Char, cmpChars x y = .eq ↔ x = y := by
  intro x
  induction x with
  | nil => intro y; cases y <;> simp [cmpChars]
  | cons a as ih =>
    intro y
    cases y with
    | nil => simp [cmpChars]
    | cons b bs =>
      by_cases hab : a < b
      · simp only [cmpChars, if_pos hab]
        constructor
        · intro h; cases h
        · rintro ⟨⟩; exact absurd hab (lt_irrefl a)
      · by_cases hba : b < a
        · simp only [cmpChars, if_neg hab, if_pos hba]
          constructor
          · intro h; cases h
          · rintro ⟨⟩; exact absurd hba (lt_irrefl a)
        · have hab2 : a = b := le_antisymm (not_lt.mp hba) (not_lt.mp hab)
          subst hab2
          simp only [cmpChars, if_neg hab, if_neg hba, ih bs, List.cons.injEq, true_and]

theorem cmpChars_swap : ∀ x y : List Char, cmpChars y x = (cmpChars x y).swap := by
  intro x
  induction x with
  | nil => intro y; cases y <;> simp [cmpChars, Ordering.swap]
  | cons a as ih =>
    intro y
    cases y with
    | nil => simp [cmpChars, Ordering.swap]
    | cons b bs =>
      by_cases hab : a < b
      · have hba : ¬ b < a := lt_asymm hab
        simp [cmpChars, hab, hba, Ordering.swap]
      · by_cases hba : b < a
        · simp [cmpChars, hab, hba, Ordering.swap]
        · simp [cmpChars, hab, hba, ih bs]

theorem cmpChars_lt_trans :
    ∀ x y z : List Char, cmpChars x y = .lt → cmpChars y z = .lt → cmpChars x z = .lt := by
  intro x
  induction x with
  | nil =>
    intro y z h1 h2
    cases y with
    | nil => cases h1
    | cons b bs =>
      cases z with
      | nil => cases h2
      | cons c cs => rfl
  | cons a as ih =>
    intro y z h1 h2
    cases y with
    | nil => cases h1
    | cons b bs =>
      cases z with
      | nil => cases h2
      | cons c cs =>
        by_cases hab : a < b <;> by_cases hbc : b < c
        · have hac : a < c := lt_trans hab hbc
          simp [cmpChars, hac]
        · by_cases hcb : c < b
          · simp only [cmpChars, if_neg hbc, if_pos hcb] at h2; cases h2
          · have hbc2 : b = c := le_antisymm (not_lt.mp hcb) (not_lt.mp hbc)
            subst hbc2
            simp [cmpChars, hab]
        · by_cases hba : b < a
          · simp only [cmpChars, if_neg hab, if_pos hba] at h1; cases h1
          · have hab2 : a = b := le_antisymm (not_lt.mp hba) (not_lt.mp hab)
            subst hab2
            simp [cmpChars, hbc]
        · by_cases hba : b < a
          · simp only [cmpChars, if_neg hab, if_pos hba] at h1; cases h1
          · by_cases hcb : c < b
            · simp only [cmpChars, if_neg hbc, if_pos hcb] at h2; cases h2
            · have hab2 : a = b := le_antisymm (not_lt.mp hba) (not_lt.mp hab)
              have hbc2 : b = c := le_antisymm (not_lt.mp hcb) (not_lt.mp hbc)
              have h1a : cmpChars as bs = .lt := by
                simpa [cmpChars, hab, hba] using h1
              have h2a : cmpChars bs cs = .lt := by
                simpa [cmpChars, hbc, hcb] using h2
              have hac : a = c := hab2.trans hbc2
              rw [hac]
              simp only [cmpChars, if_neg (lt_irrefl c)]
              exact ih bs cs h1a h2a

theorem cmpCase_eq : ∀ x y : List Char, cmpCase x y = .eq → x = y := by
  intro x
  induction x with
  | nil => intro y h; cases y with | nil => rfl | cons b bs => cases h
  | cons a as ih =>
    intro y h
    cases y with
    | nil => cases h
    | cons b bs =>
      by_cases hab : a = b
      · subst hab
        simp only [cmpCase, if_pos rfl] at h
        rw [ih bs h]
      · by_cases hba : b < a <;> simp [cmpCase, hab, hba] at h

theorem cmpCase_swap : ∀ x y : List Char, cmpCase y x = (cmpCase x y).swap := by
  intro x
  induction x with
  | nil => intro y; cases y <;> simp [cmpCase, Ordering.swap]
  | cons a as ih =>
    intro y
    cases y with
    | nil => simp [cmpCase, Ordering.swap]
    | cons b bs =>
      by_cases hab : a = b
      · subst hab
        simp [cmpCase, ih bs]
      · have hba : b ≠ a := fun h => hab h.symm
        by_cases hlt : b < a
        · have : ¬ a < b := lt_asymm hlt
          simp [cmpCase, hab, hba, hlt, this, Ordering.swap]
        · have hlt2 : a < b := (lt_or_gt_of_ne hab).resolve_right hlt
          simp [cmpCase, hab, hba, hlt, hlt2, Ordering.swap]

theorem cmpCase_lt_trans :
    ∀ x y z : List Char, cmpCase x y = .lt → cmpCase y z = .lt → cmpCase x z = .lt := by
  intro x
  induction x with
  | nil =>
    intro y z h1 h2
    cases y with
    | nil => cases h1
    | cons b bs =>
      cases z with
      | nil => cases h2
      | cons c cs => rfl
  | cons a as ih =>
    intro y z h1 h2
    cases y with
    | nil => cases h1
    | cons b bs =>
      cases z with
      | nil => cases h2
      | cons c cs =>
        by_cases hab : a = b <;> by_cases hbc : b = c
        · subst hab; subst hbc
          simp only [cmpCase, if_pos rfl] at h1 h2 ⊢
          exact ih bs cs h1 h2
        · subst hab
          simp only [cmpCase, if_neg hbc] at h2 ⊢
          exact h2
        · subst hbc
          simp only [cmpCase, if_neg hab] at h1 ⊢
          exact h1
        · by_cases hba : b < a
          · by_cases hcb : c < b
            · have hca : c < a := lt_trans hcb hba
              have hac : a ≠ c := fun h => absurd (h ▸ hca) (lt_irrefl a)
              simp [cmpCase, hac, hca]
            · simp [cmpCase, hbc, hcb] at h2
          · simp [cmpCase, hab, hba] at h1

theorem lcOrd_swap (a b : String) : lcOrd b a = (lcOrd a b).swap := by
  unfold lcOrd
  rw [cmpChars_swap (lowerData a) (lowerData b)]
  cases h : cmpChars (lowerData a) (lowerData b) <;>
    simp [Ordering.swap, cmpCase_swap a.data b.data]

theorem lcOrd_ngt_trans (a b c : String) :
    lcOrd a b ≠ .gt → lcOrd b c ≠ .gt → lcOrd a c ≠ .gt := by
  intro h1 h2
  unfold lcOrd at h1 h2 ⊢
  cases hab : cmpChars (lowerData a) (lowerData b) with
  | gt => rw [hab] at h1; exact absurd rfl h1
  | eq =>
    have hab2 : lowerData a = lowerData b := (cmpChars_eq_iff _ _).mp hab
    rw [hab] at h1
    cases hbc : cmpChars (lowerData b) (lowerData c) with
    | gt => rw [hbc] at h2; exact absurd rfl h2
    | lt => rw [hab2, hbc]; intro h; cases h
    | eq =>
      have hbc2 : lowerData b = lowerData c := (cmpChars_eq_iff _ _).mp hbc
      rw [hbc] at h2
      rw [hab2, hbc2, (cmpChars_eq_iff _ _).mpr rfl]
      cases hc1 : cmpCase a.data b.data with
      | gt => exact absurd hc1 h1
      | eq => rw [cmpCase_eq _ _ hc1]; exact h2
      | lt =>
        cases hc2 : cmpCase b.data c.data with
        | gt => exact absurd hc2 h2
        | eq => rw [← cmpCase_eq _ _ hc2, hc1]; intro h; cases h
        | lt => rw [cmpCase_lt_trans _ _ _ hc1 hc2]; intro h; cases h
  | lt =>
    rw [hab] at h1
    cases hbc : cmpChars (lowerData b) (lowerData c) with
    | gt => rw [hbc] at h2; exact absurd rfl h2
    | eq =>
      have hbc2 : lowerData b = lowerData c := (cmpChars_eq_iff _ _).mp hbc
      rw [← hbc2, hab]; intro h; cases h
    | lt => rw [cmpChars_lt_trans _ _ _ hab hbc]; intro h; cases h

theorem localeCompare_nonpos_iff (a b : String) :
    localeCompare a b ≤ 0 ↔ lcOrd a b ≠ .gt := by
  unfold localeCompare
  cases lcOrd a b <;> simp

theorem byNameLe_trans : ∀ a b c : SteamGame, byNameLe a b → byNameLe b c → byNameLe a c := by
  intro a b c h1 h2
  rw [byNameLe, localeCompare_nonpos_iff] at h1 h2 ⊢
  exact lcOrd_ngt_trans _ _ _ h1 h2

theorem byNameLe_total : ∀ a b : SteamGame, byNameLe a b ∨ byNameLe b a := by
  intro a b
  rw [byNameLe, byNameLe, localeCompare_nonpos_iff, localeCompare_nonpos_iff]
  cases h : lcOrd a.name b.name with
  | lt => left; simp [h]
  | eq => left; simp [h]
  | gt =>
    right
    rw [lcOrd_swap, h]
    simp [Ordering.swap]

theorem byNameLe_imp_ci (a b : SteamGame) (h : byNameLe a b) :
    caseInsensitiveLe a.name b.name := by
  rw [byNameLe, localeCompare_nonpos_iff] at h
  rw [caseInsensitiveLe]
  unfold lcOrd at h
  cases hc : cmpChars (lowerData a.name) (lowerData b.name) with
  | lt => simp [hc]
  | eq => simp [hc]
  | gt => rw [hc] at h; exact absurd rfl h

/-! Section: Deduplication lemmas -/

theorem findIdx_eq_iff {α : Type} (p : α → Bool) :
    ∀ (l : List α) (n : Nat) (g : α), l[n]? = some g →
      (l.findIdx p = n ↔ (p g = true ∧ ∀ x ∈ l.take n, p x = false)) := by
  intro l
  induction l with
  | nil => intro n g h; cases h
  | cons a t ih =>
    intro n g h
    cases n with
    | zero =>
      have hag : a = g := by simpa using h
      subst hag
      rw [List.findIdx_cons]
      cases hp : p a
      · simp [hp]
      · simp [hp]
    | succ n =>
      have ht : t[n]? = some g := by simpa using h
      rw [List.findIdx_cons]
      cases hp : p a
      · simpa [hp, Nat.succ_inj] using ih n g ht
      · simp only [hp, cond_true]
        constructor
        · intro h0; exact absurd h0.symm (Nat.succ_ne_zero n)
        · rintro ⟨-, hall⟩
          have hmem : a ∈ (a :: t).take (n + 1) := by simp
          have := hall a hmem
          rw [hp] at this
          cases this

theorem dedup_enum_eq (l : List SteamGame) :
    ∀ (s : List SteamGame) (n : Nat), l.drop n = s →
      ((List.enumFrom n s).filter
          (fun p => l.findIdx (fun g => g.appid == p.2.appid) == p.1)).map Prod.snd
        = dedupSeen ((l.take n).map (fun g => g.appid)) s := by
  intro s
  induction s with
  | nil => intro n _; simp [dedupSeen]
  | cons g s ih =>
    intro n hdrop
    have hget : l[n]? = some g := by
      rw [← List.head?_drop, hdrop]; rfl
    have hdrop1 : l.drop (n + 1) = s := by
      rw [← List.tail_drop, hdrop]; rfl
    have htake : (l.take (n + 1)).map (fun x => x.appid)
        = (l.take n).map (fun x => x.appid) ++ [g.appid] := by
      rw [List.take_succ, hget]; simp
    have hiff := findIdx_eq_iff (fun x => x.appid == g.appid) l n g hget
    have henum : List.enumFrom n (g :: s) = (n, g) :: List.enumFrom (n + 1) s := rfl
    rw [henum, List.filter_cons]
    by_cases hmem : g.appid ∈ (l.take n).map (fun x => x.appid)
    · have hne : l.findIdx (fun x => x.appid == g.appid) ≠ n := by
        intro hcon
        rw [hiff] at hcon
        obtain ⟨x, hx, hxa⟩ := List.mem_map.mp hmem
        exact absurd (hcon.2 x hx) (by simp [hxa])
      have hcond : (l.findIdx (fun x => x.appid == g.appid) == n) = false := by
        simpa using hne
      rw [if_neg (by simp [hcond])]
      rw [ih (n + 1) hdrop1, htake]
      rw [dedupSeen, if_pos hmem]
    · have heq : l.findIdx (fun x => x.appid == g.appid) = n := by
        rw [hiff]
        refine ⟨by simp, ?_⟩
        intro x hx
        by_cases hxa : x.appid = g.appid
        · exact absurd (List.mem_map.mpr ⟨x, hx, hxa⟩) hmem
        · simp [hxa]
      rw [if_pos (by simp [heq])]
      rw [List.map_cons, ih (n + 1) hdrop1, htake]
      rw [dedupSeen, if_neg hmem]

theorem dedupByAppid_eq_dedupSeen (l : List SteamGame) :
    dedupByAppid l = dedupSeen [] l := by
  have h := dedup_enum_eq l l 0 (by simp)
  simpa [dedupByAppid, List.enum] using h

theorem dedupSeen_sublist : ∀ (seen : List Nat) (s : List SteamGame),
    (dedupSeen seen s).Sublist s := by
  intro seen s
  induction s generalizing seen with
  | nil => simp [dedupSeen]
  | cons g gs ih =>
    rw [dedupSeen]
    by_cases h : g.appid ∈ seen
    · rw [if_pos h]; exact (ih _).cons g
    · rw [if_neg h]; exact (ih _).cons₂ g

theorem dedupSeen_mem_spec : ∀ (seen : List Nat) (s : List SteamGame) (g : SteamGame),
    g ∈ dedupSeen seen s →
      g.appid ∉ seen ∧ s.find? (fun x => x.appid == g.appid) = some g := by
  intro seen s
  induction s generalizing seen with
  | nil => intro g hg; simp [dedupSeen] at hg
  | cons h t ih =>
    intro g hg
    rw [dedupSeen] at hg
    by_cases hm : h.appid ∈ seen
    · rw [if_pos hm] at hg
      obtain ⟨h1, h2⟩ := ih _ g hg
      have hns : g.appid ∉ seen := fun hc => h1 (List.mem_append_left _ hc)
      have hne : g.appid ≠ h.appid := fun hc => h1 (List.mem_append_right _ (by simp [hc]))
      refine ⟨hns, ?_⟩
      rw [List.find?_cons]
      have : (h.appid == g.appid) = false := by simp; exact fun hc => hne hc.symm
      rw [this]
      exact h2
    · rw [if_neg hm] at hg
      rcases List.mem_cons.mp hg with hgh | hgt
      · subst hgh
        refine ⟨hm, ?_⟩
        rw [List.find?_cons]
        simp
      · obtain ⟨h1, h2⟩ := ih _ g hgt
        have hns : g.appid ∉ seen := fun hc => h1 (List.mem_append_left _ hc)
        have hne : g.appid ≠ h.appid := fun hc => h1 (List.mem_append_right _ (by simp [hc]))
        refine ⟨hns, ?_⟩
        rw [List.find?_cons]
        have : (h.appid == g.appid) = false := by simp; exact fun hc => hne hc.symm
        rw [this]
        exact h2

theorem dedupSeen_pairwise : ∀ (seen : List Nat) (s : List SteamGame),
    (dedupSeen seen s).Pairwise (fun a b => a.appid ≠ b.appid) := by
  intro seen s
  induction s generalizing seen with
  | nil => simp [dedupSeen]
  | cons h t ih =>
    rw [dedupSeen]
    by_cases hm : h.appid ∈ seen
    · rw [if_pos hm]; exact ih _
    · rw [if_neg hm]
      refine List.Pairwise.cons ?_ (ih _)
      intro b hb
      have := (dedupSeen_mem_spec _ _ b hb).1
      intro hc
      exact this (List.mem_append_right _ (by simp [hc]))

theorem dedupSeen_appid_covers : ∀ (seen : List Nat) (s : List SteamGame) (a : Nat),
    a ∈ s.map (fun g => g.appid) →
      a ∈ seen ∨ a ∈ (dedupSeen seen s).map (fun g => g.appid) := by
  intro seen s
  induction s generalizing seen with
  | nil => intro a ha; simp at ha
  | cons h t ih =>
    intro a ha
    rw [List.map_cons] at ha
    rcases List.mem_cons.mp ha with hah | hat
    · by_cases hm : h.appid ∈ seen
      · rw [dedupSeen, if_pos hm]; left; rw [hah]; exact hm
      · rw [dedupSeen, if_neg hm]; right
        rw [List.map_cons]
        exact List.mem_cons.mpr (Or.inl hah)
    · rcases ih (seen ++ [h.appid]) a hat with hs | hd
      · rcases List.mem_append.mp hs with h1 | h1
        · left; exact h1
        · have hah : a = h.appid := by simpa using h1
          by_cases hm : h.appid ∈ seen
          · rw [dedupSeen, if_pos hm]; left; rw [hah]; exact hm
          · rw [dedupSeen, if_neg hm]; right
            rw [List.map_cons]
            exact List.mem_cons.mpr (Or.inl hah)
      · by_cases hm : h.appid ∈ seen
        · rw [dedupSeen, if_pos hm]; right; exact hd
        · rw [dedupSeen, if_neg hm]; right
          rw [List.map_cons]
          exact List.mem_cons.mpr (Or.inr hd)

/-! Section: Aggregator helper lemmas -/

theorem foldl_add_size : ∀ (l : List SteamGame) (n : Nat),
    l.foldl (fun sum g => sum + g.sizeOnDisk) n = n + (l.map (fun g => g.sizeOnDisk)).sum := by
  intro l
  induction l with
  | nil => intro n; simp
  | cons g t ih =>
    intro n
    rw [List.foldl_cons, ih, List.map_cons, List.sum_cons]
    omega

theorem getInstalled_ok_shape (env : Env) (info : SteamLibraryInfo)
    (h : getInstalledSteamGames env = .ok info) :
    ∃ steamPath, getSteamPath env = .ok (some steamPath) ∧
      info.games = List.insertionSort byNameLe (dedupByAppid (allGamesFor env steamPath)) ∧
      info.totalSize = info.games.foldl (fun sum g => sum + g.sizeOnDisk) 0 ∧
      info.gameCount = info.games.length := by
  unfold getInstalledSteamGames at h
  cases hsp : getSteamPath env with
  | error e => rw [hsp] at h; cases h
  | ok o =>
    cases o with
    | none => rw [hsp] at h; cases h
    | some steamPath =>
      rw [hsp] at h
      have hinfo := (Except.ok.injEq _ _).mp h
      refine ⟨steamPath, rfl, ?_, ?_, ?_⟩ <;> rw [← hinfo]

theorem sortedByName_pairwise (l : List SteamGame) :
    (List.insertionSort byNameLe l).Pairwise (fun a b => caseInsensitiveLe a.name b.name) := by
  haveI : IsTotal SteamGame byNameLe := ⟨byNameLe_total⟩
  haveI : IsTrans SteamGame byNameLe := ⟨byNameLe_trans⟩
  have hs : (List.insertionSort byNameLe l).Pairwise byNameLe :=
    List.sorted_insertionSort byNameLe l
  exact hs.imp (fun h => byNameLe_imp_ci _ _ h)

/-! Section: Resolver helper lemmas -/

theorem tryKey_exec_none (env : Env) (k : String) (h : env.execInstallPath k = none) :
    tryKey env k = none := by
  unfold tryKey; rw [h]

theorem tryKey_exec_some (env : Env) (k stdout : String)
    (h : env.execInstallPath k = some stdout) :
    tryKey env k
      = if jsTrim stdout ≠ "" ∧ env.existsSync (jsTrim stdout) = true
        then some (jsTrim stdout) else none := by
  unfold tryKey; rw [h]

theorem tryKey_eq_none_iff (env : Env) (k : String) :
    tryKey env k = none ↔ ¬ keyResolves env k := by
  cases h : env.execInstallPath k with
  | none =>
    rw [tryKey_exec_none env k h]
    simp only [true_iff]
    rintro ⟨out, hout, -, -⟩
    rw [h] at hout; cases hout
  | some stdout =>
    rw [tryKey_exec_some env k stdout h]
    by_cases hc : jsTrim stdout ≠ "" ∧ env.existsSync (jsTrim stdout) = true
    · rw [if_pos hc]
      constructor
      · intro hcon; cases hcon
      · intro hcon
        exact (hcon ⟨stdout, h, hc.1, hc.2⟩).elim
    · rw [if_neg hc]
      simp only [true_iff]
      rintro ⟨out, hout, h1, h2⟩
      rw [h] at hout
      have : out = stdout := by simpa using hout.symm
      subst this
      exact hc ⟨h1, h2⟩

theorem tryKey_eq_some (env : Env) (k p : String) (h : tryKey env k = some p) :
    p ≠ "" ∧ env.existsSync p = true := by
  cases ho : env.execInstallPath k with
  | none => rw [tryKey_exec_none env k ho] at h; cases h
  | some stdout =>
    rw [tryKey_exec_some env k stdout ho] at h
    by_cases hc : jsTrim stdout ≠ "" ∧ env.existsSync (jsTrim stdout) = true
    · rw [if_pos hc] at h
      have := (Option.some.injEq _ _).mp h
      rw [← this]
      exact hc
    · rw [if_neg hc] at h; cases h

/-! Section: Filename and field-extraction lemmas -/

theorem stripPrefixList_self_append : ∀ (p cs : List Char),
    stripPrefixList p (p ++ cs) = some cs := by
  intro p
  induction p with
  | nil => intro cs; rfl
  | cons c p ih => intro cs; simp [stripPrefixList, ih]

theorem takeWhile_all_append (p : Char → Bool) :
    ∀ (xs : List Char) (y : Char) (ys : List Char),
      (∀ c ∈ xs, p c = true) → p y = false →
      (xs ++ y :: ys).takeWhile p = xs ∧ (xs ++ y :: ys).dropWhile p = y :: ys := by
  intro xs
  induction xs with
  | nil =>
    intro y ys _ hy
    simp [List.takeWhile_cons, List.dropWhile_cons, hy]
  | cons x xs ih =>
    intro y ys hall hy
    have hx : p x = true := hall x (by simp)
    have := ih y ys (fun c hc => hall c (by simp [hc])) hy
    simp [List.takeWhile_cons, List.dropWhile_cons, hx, this.1, this.2]

theorem matchManifestAt_std (ds : List Char)
    (hne : ds ≠ []) (hdig : ∀ c ∈ ds, c.isDigit = true) :
    matchManifestAt ("appmanifest_".data ++ ds ++ ".acf".data) = some ds := by
  have hstrip : stripPrefixList ("appmanifest_".data) ("appmanifest_".data ++ (ds ++ ".acf".data))
      = some (ds ++ ".acf".data) := stripPrefixList_self_append _ _
  have hdot : ('.' : Char).isDigit = false := by decide
  have h1 : ds ++ ".acf".data = ds ++ '.' :: "acf".data := rfl
  have h2 := takeWhile_all_append Char.isDigit ds '.' "acf".data hdig hdot
  have htake : (ds ++ ".acf".data).takeWhile Char.isDigit = ds := by rw [h1]; exact h2.1
  have hdropw : (ds ++ ".acf".data).dropWhile Char.isDigit = '.' :: "acf".data := by
    rw [h1]; exact h2.2
  have h3 : stripPrefixList (".acf".data) ('.' :: "acf".data) = some [] := by
    have : ('.' :: "acf".data) = ".acf".data ++ [] := by simp
    rw [this]
    exact stripPrefixList_self_append _ _
  unfold matchManifestAt
  rw [List.append_assoc, hstrip]
  show (if (ds ++ ".acf".data).takeWhile Char.isDigit = [] then none
        else
          match stripPrefixList ".acf".data ((ds ++ ".acf".data).dropWhile Char.isDigit) with
          | some _ => some ((ds ++ ".acf".data).takeWhile Char.isDigit)
          | none => none) = some ds
  rw [htake, hdropw, if_neg hne, h3]

theorem filenameAppid_std (ds : List Char)
    (hne : ds ≠ []) (hdig : ∀ c ∈ ds, c.isDigit = true) :
    filenameAppid ("appmanifest_" ++ String.mk ds ++ ".acf") = some (digitsToNat ds) := by
  have hdata : ("appmanifest_" ++ String.mk ds ++ ".acf").data
      = "appmanifest_".data ++ ds ++ ".acf".data := by
    rw [String.data_append, String.data_append]
  unfold filenameAppid
  rw [hdata]
  have hm := matchManifestAt_std ds hne hdig
  have : filenameDigitsAux ("appmanifest_".data ++ ds ++ ".acf".data) = some ds := by
    rw [show "appmanifest_".data ++ ds ++ ".acf".data
        = 'a' :: ("ppmanifest_".data ++ ds ++ ".acf".data) from rfl]
    unfold filenameDigitsAux
    rw [show ('a' :: ("ppmanifest_".data ++ ds ++ ".acf".data))
        = "appmanifest_".data ++ ds ++ ".acf".data from rfl, hm]
  rw [this]
  rfl

theorem firstKVMatch_iff_leftmost (key : List Char) (pred : Char → Bool) :
    ∀ (cs v : List Char),
      firstKVMatch key pred cs = some v ↔ LeftmostCapture key pred cs v := by
  intro cs
  induction cs with
  | nil =>
    intro v
    constructor
    · intro h; cases h
    · rintro ⟨n, rest, hm, -⟩
      rw [List.drop_nil] at hm
      unfold matchKVAt at hm
      cases hm
  | cons c cs ih =>
    intro v
    rw [firstKVMatch]
    cases hm : matchKVAt key pred (c :: cs) with
    | some capRest =>
      obtain ⟨cap, r⟩ := capRest
      constructor
      · intro h
        have hv : cap = v := by simpa using h
        exact ⟨0, r, by simpa [hv] using hm, by omega⟩
      · rintro ⟨n, rest, hn, hmin⟩
        cases n with
        | zero =>
          rw [List.drop_zero] at hn
          rw [hm] at hn
          simpa using (Prod.mk.injEq _ _ _ _).mp (by simpa using hn) |>.1
        | succ n =>
          have := hmin 0 (Nat.succ_pos n)
          rw [List.drop_zero, hm] at this
          cases this
    | none =>
      rw [ih v]
      constructor
      · rintro ⟨n, rest, hn, hmin⟩
        refine ⟨n + 1, rest, by simpa [List.drop_succ_cons] using hn, ?_⟩
        intro m hmlt
        cases m with
        | zero => rw [List.drop_zero]; exact hm
        | succ m =>
          rw [List.drop_succ_cons]
          exact hmin m (by omega)
      · rintro ⟨n, rest, hn, hmin⟩
        cases n with
        | zero => rw [List.drop_zero, hm] at hn; cases hn
        | succ n =>
          rw [List.drop_succ_cons] at hn
          refine ⟨n, rest, hn, ?_⟩
          intro m hmlt
          have := hmin (m + 1) (by omega)
          rw [List.drop_succ_cons] at this
          exact this

theorem firstResolvedKey_pair (env : Env) :
    firstResolvedKey env registryPaths
      = match tryKey env wowKey with
        | some p => some p
        | none => tryKey env nativeKey := by
  cases h1 : tryKey env wowKey <;> cases h2 : tryKey env nativeKey <;>
    simp [registryPaths, firstResolvedKey, h1, h2]

/-! Section: Claim C1 -/

/-- Claim C1, counterexample: on a non-Windows host `getSteamPath` throws
(the promise rejects with the platform error) instead of returning
`null`, so the resolver does not signal the unsupported platform by
`null` and does throw to its caller. -/
theorem c1_counterexample :
    getSteamPath envLinux = .error "Steam library browsing is only supported on Windows" ∧
    getSteamPath envLinux ≠ .ok none := by
  have hplat : envLinux.platform ≠ "win32" := by decide
  have h : getSteamPath envLinux
      = .error "Steam library browsing is only supported on Windows" := by
    unfold getSteamPath
    rw [if_pos hplat]
  refine ⟨h, ?_⟩
  rw [h]
  intro hc
  cases hc

/-- Claim C1, amended: on an unsupported platform `getSteamPath` throws
the platform error (rather than returning `null`); on Windows it never
throws, returns `null` exactly when neither registry key resolves to a
non-empty string naming an existing path, and any non-`null` result is a
non-empty existing path. -/
theorem c1_resolver_amended (env : Env) :
    (env.platform ≠ "win32" →
      getSteamPath env = .error "Steam library browsing is only supported on Windows") ∧
    (env.platform = "win32" →
      (∃ r, getSteamPath env = .ok r) ∧
      (getSteamPath env = .ok none ↔
        ¬ keyResolves env wowKey ∧ ¬ keyResolves env nativeKey) ∧
      (∀ p, getSteamPath env = .ok (some p) → p ≠ "" ∧ env.existsSync p = true)) := by
  constructor
  · intro h
    unfold getSteamPath
    rw [if_pos h]
  · intro h
    have hnot : ¬ env.platform ≠ "win32" := by simp [h]
    have hok : getSteamPath env = .ok (firstResolvedKey env registryPaths) := by
      unfold getSteamPath
      rw [if_neg hnot]
    refine ⟨⟨_, hok⟩, ?_, ?_⟩
    · rw [hok, firstResolvedKey_pair]
      cases h1 : tryKey env wowKey with
      | some p =>
        have hres : keyResolves env wowKey := by
          by_contra hc
          rw [← tryKey_eq_none_iff] at hc
          rw [h1] at hc
          cases hc
        simp [hres]
      | none =>
        have hw : ¬ keyResolves env wowKey := (tryKey_eq_none_iff env wowKey).mp h1
        cases h2 : tryKey env nativeKey with
        | none =>
          have hn : ¬ keyResolves env nativeKey := (tryKey_eq_none_iff env nativeKey).mp h2
          simp [hw, hn]
        | some p =>
          have hn : keyResolves env nativeKey := by
            by_contra hc
            rw [← tryKey_eq_none_iff] at hc
            rw [h2] at hc
            cases hc
          simp [hn]
    · intro p hp
      rw [hok, firstResolvedKey_pair] at hp
      cases h1 : tryKey env wowKey with
      | some q =>
        rw [h1] at hp
        have hq : q = p := by simpa using hp
        exact hq ▸ tryKey_eq_some env wowKey q h1
      | none =>
        rw [h1] at hp
        have h2 : tryKey env nativeKey = some p := by simpa using hp
        exact tryKey_eq_some env nativeKey p h2

/-- Claim C1, witness at a concrete Windows environment. -/
theorem c1_witness :
    getSteamPath envFull = .ok none ↔
      ¬ keyResolves envFull wowKey ∧ ¬ keyResolves envFull nativeKey :=
  ((c1_resolver_amended envFull).2 rfl).2.1

/-! Section: Claim C2 -/

/-- Claim C2: `getInstalledSteamGames` propagates an error exactly in the
two fatal cases (unsupported platform, unresolved installation path);
an unreadable `libraryfolders.vdf`, a missing `steamapps` directory, a
failing directory listing, and an unreadable manifest are each absorbed,
the affected unit contributing nothing while the scan continues. -/
theorem c2_error_propagation (env : Env) :
    (env.platform ≠ "win32" →
      getInstalledSteamGames env
        = .error "Steam library browsing is only supported on Windows") ∧
    (getSteamPath env = .ok none →
      getInstalledSteamGames env = .error "Steam installation not found") ∧
    (∀ e, getInstalledSteamGames env = .error e →
      env.platform ≠ "win32" ∨ getSteamPath env = .ok none) ∧
    (∀ sp, env.readFile (joinP (joinP sp "steamapps") "libraryfolders.vdf") = none →
      getSteamLibraryPaths env sp = [sp]) ∧
    (∀ lp, env.existsSync (joinP lp "steamapps") = false → parseAppManifests env lp = []) ∧
    (∀ lp, env.readdir (joinP lp "steamapps") = none → parseAppManifests env lp = []) ∧
    (∀ lp sp f, env.readFile (joinP sp f) = none → parseManifestFile env lp sp f = none) ∧
    (∀ lp sp fs1 fs2 f, parseManifestFile env lp sp f = none →
      parseManifestFiles env lp sp (fs1 ++ f :: fs2)
        = parseManifestFiles env lp sp (fs1 ++ fs2)) := by
  refine ⟨?_, ?_, ?_, ?_, ?_, ?_, ?_, ?_⟩
  · intro h
    have hsp : getSteamPath env
        = .error "Steam library browsing is only supported on Windows" := by
      unfold getSteamPath
      rw [if_pos h]
    unfold getInstalledSteamGames
    rw [hsp]
  · intro h
    unfold getInstalledSteamGames
    rw [h]
  · intro e h
    by_cases hp : env.platform ≠ "win32"
    · exact Or.inl hp
    · right
      have hok : getSteamPath env = .ok (firstResolvedKey env registryPaths) := by
        unfold getSteamPath
        rw [if_neg hp]
      cases hr : firstResolvedKey env registryPaths with
      | none => rw [hok, hr]
      | some sp =>
        unfold getInstalledSteamGames at h
        rw [hok, hr] at h
        simp at h
  · intro sp h
    cases he : env.existsSync (joinP (joinP sp "steamapps") "libraryfolders.vdf") <;>
      simp [getSteamLibraryPaths, he, h]
  · intro lp h
    simp [parseAppManifests, h]
  · intro lp h
    cases he : env.existsSync (joinP lp "steamapps") <;> simp [parseAppManifests, he, h]
  · intro lp sp f h
    cases he : env.existsSync (joinP sp f) <;> simp [parseManifestFile, he, h]
  · intro lp sp fs1 fs2 f h
    simp [parseManifestFiles, List.filterMap_append, List.filterMap_cons, h]

/-- Claim C2, witness: the platform error propagates on a Linux host. -/
theorem c2_witness :
    getInstalledSteamGames envLinux
      = .error "Steam library browsing is only supported on Windows" :=
  (c2_error_propagation envLinux).1 (by decide)

/-! Section: Claim C8 -/

theorem log1024_spec : ∀ (fuel b : Nat), 0 < b → b ≤ fuel →
    1024 ^ log1024 fuel b ≤ b ∧ b < 1024 ^ (log1024 fuel b + 1) := by
  intro fuel
  induction fuel with
  | zero => intro b hb hle; exact absurd hb (by omega)
  | succ fuel ih =>
    intro b hb hle
    rw [log1024]
    by_cases hlt : b < 1024
    · rw [if_pos hlt]
      simpa using ⟨hb, hlt⟩
    · rw [if_neg hlt]
      have hge : 1024 ≤ b := not_lt.mp hlt
      have hq : 0 < b / 1024 := Nat.div_pos hge (by norm_num)
      have hqle : b / 1024 ≤ fuel := by
        have := Nat.div_lt_self hb (by norm_num : 1 < 1024)
        omega
      obtain ⟨h1, h2⟩ := ih (b / 1024) hq hqle
      constructor
      · rw [pow_succ]
        calc 1024 ^ log1024 fuel (b / 1024) * 1024 ≤ b / 1024 * 1024 :=
              Nat.mul_le_mul_right _ h1
          _ ≤ b := Nat.div_mul_le_self b 1024
      · rw [pow_succ]
        calc b < (b / 1024 + 1) * 1024 := by omega
          _ ≤ 1024 ^ (log1024 fuel (b / 1024) + 1) * 1024 := Nat.mul_le_mul_right _ h2

theorem log1024_le_four (b : Nat) (h0 : 0 < b) (h5 : b < 1024 ^ 5) :
    log1024 b b ≤ 4 := by
  obtain ⟨h1, -⟩ := log1024_spec b b h0 le_rfl
  by_contra hc
  have h5le : 5 ≤ log1024 b b := by omega
  have := Nat.pow_le_pow_right (show 1 ≤ 1024 by norm_num) h5le
  omega

/-- Claim C8, counterexample: the source never clamps the unit index,
so one pebibyte formats with the out-of-range unit `undefined` and the
result does not end in any of the five units. -/
theorem c8_counterexample :
    formatFileSize (1024 ^ 5) = "1 undefined" ∧
    ¬ ∃ s u, formatFileSize (1024 ^ 5) = s ++ " " ++ u ∧ u ∈ sizeUnits := by
  have h : formatFileSize (1024 ^ 5) = "1 undefined" := by rfl
  refine ⟨h, ?_⟩
  rintro ⟨s, u, heq, hu⟩
  rw [h] at heq
  have hdata : ∀ v : String, v.data.getLast? = some 'B' →
      ∀ t : String, ("1 undefined" : String) ≠ t ++ " " ++ v := by
    intro v hv t heq2
    have h2 := congrArg (fun x : String => x.data.getLast?) heq2
    simp only [String.data_append] at h2
    rw [List.getLast?_append, hv] at h2
    have h3 : ("1 undefined" : String).data.getLast? = some 'd' := by decide
    rw [h3] at h2
    have h4 : (some 'B').or ((t.data ++ (" " : String).data).getLast?) = some 'B' := rfl
    rw [h4] at h2
    exact absurd (Option.some.inj h2) (by decide)
  simp only [sizeUnits] at hu
  fin_cases hu
  · exact hdata "B" (by decide) s heq
  · exact hdata "KB" (by decide) s heq
  · exact hdata "MB" (by decide) s heq
  · exact hdata "GB" (by decide) s heq
  · exact hdata "TB" (by decide) s heq

/-- Claim C8, amended: the unit index is `floor(log_1024 bytes)` but the
source does not clamp it; for every byte count below `1024 ^ 5` the
index stays within the unit table and the result ends in one of the five
units, and the three concrete examples hold. -/
theorem c8_format_size_amended :
    (∀ bytes : Nat, 0 < bytes → bytes < 1024 ^ 5 →
      log1024 bytes bytes ≤ 4 ∧
      sizeUnits.getD (log1024 bytes bytes) "undefined" ∈ sizeUnits ∧
      formatFileSize bytes
        = printHundredths ((200 * bytes + 1024 ^ log1024 bytes bytes)
            / (2 * 1024 ^ log1024 bytes bytes))
          ++ " " ++ sizeUnits.getD (log1024 bytes bytes) "undefined") ∧
    (∀ bytes : Nat, 0 < bytes →
      1024 ^ log1024 bytes bytes ≤ bytes ∧ bytes < 1024 ^ (log1024 bytes bytes + 1)) ∧
    formatFileSize 0 = "0 B" ∧
    formatFileSize 1024 = "1 KB" ∧
    formatFileSize 1536 = "1.5 KB" := by
  refine ⟨?_, ?_, rfl, rfl, rfl⟩
  · intro bytes h0 h5
    have hle := log1024_le_four bytes h0 h5
    refine ⟨hle, ?_, ?_⟩
    · set i := log1024 bytes bytes with hi
      interval_cases i <;> decide
    · unfold formatFileSize
      rw [if_neg (by omega)]
  · intro bytes h0
    exact log1024_spec bytes bytes h0 le_rfl

/-- Claim C8, witness at 1536 bytes. -/
theorem c8_witness :
    log1024 1536 1536 ≤ 4 ∧
    sizeUnits.getD (log1024 1536 1536) "undefined" ∈ sizeUnits ∧
    formatFileSize 1536
      = printHundredths ((200 * 1536 + 1024 ^ log1024 1536 1536)
          / (2 * 1024 ^ log1024 1536 1536))
        ++ " " ++ sizeUnits.getD (log1024 1536 1536) "undefined" :=
  c8_format_size_amended.1 1536 (by norm_num) (by norm_num)

/-! Section: Claim C9 -/

/-- Claim C9: for timestamps no later than now, the relative-time
formatter returns Today at 0 whole days, Yesterday at 1, a day count for
2 to 6, `floor(days / 7)` weeks for 7 to 29, and `floor(days / 30)`
months from 30 on. -/
theorem c9_relative_time (nowMs ts days : Int)
    (_hpast : 1000 * ts ≤ nowMs)
    (hdays : days = (nowMs - 1000 * ts).fdiv 86400000) :
    (days = 0 → formatLastUpdated nowMs ts = "Today") ∧
    (days = 1 → formatLastUpdated nowMs ts = "Yesterday") ∧
    (2 ≤ days → days < 7 → formatLastUpdated nowMs ts = toString days ++ " days ago") ∧
    (7 ≤ days → days < 30 →
      formatLastUpdated nowMs ts = toString (days.fdiv 7) ++ " weeks ago") ∧
    (30 ≤ days →
      formatLastUpdated nowMs ts = toString (days.fdiv 30) ++ " months ago") := by
  have hfmt : formatLastUpdated nowMs ts
      = (if days = 0 then "Today"
         else if days = 1 then "Yesterday"
         else if days < 7 then toString days ++ " days ago"
         else if days < 30 then toString (days.fdiv 7) ++ " weeks ago"
         else toString (days.fdiv 30) ++ " months ago") := by
    rw [hdays]
    rfl
  rw [hfmt]
  refine ⟨?_, ?_, ?_, ?_, ?_⟩
  · intro h1
    rw [if_pos h1]
  · intro h1
    rw [if_neg (by omega), if_pos h1]
  · intro h1 h2
    rw [if_neg (by omega), if_neg (by omega), if_pos h2]
  · intro h1 h2
    rw [if_neg (by omega), if_neg (by omega), if_neg (by omega), if_pos h2]
  · intro h1
    rw [if_neg (by omega), if_neg (by omega), if_neg (by omega), if_neg (by omega)]

/-- Claim C9, witness: a timestamp 40 days in the past formats as
`1 months ago`. -/
theorem c9_witness :
    formatLastUpdated 3456000000 0 = toString ((40 : Int).fdiv 30) ++ " months ago" ∧
    formatLastUpdated 3456000000 0 = "1 months ago" := by
  have h := (c9_relative_time 3456000000 0 40 (by norm_num) (by decide)).2.2.2.2 (by norm_num)
  refine ⟨h, ?_⟩
  rw [h]
  decide

/-! Section: Claim C3 -/

/-- Claim C3: every aggregate result satisfies the count, total-size,
distinct-id, and case-insensitive-name-order invariants. -/
theorem c3_library_invariants (env : Env) (info : SteamLibraryInfo)
    (h : getInstalledSteamGames env = .ok info) :
    info.gameCount = info.games.length ∧
    info.totalSize = (info.games.map (fun g => g.sizeOnDisk)).sum ∧
    info.games.Pairwise (fun a b => a.appid ≠ b.appid) ∧
    info.games.Pairwise (fun a b => caseInsensitiveLe a.name b.name) := by
  obtain ⟨sp, hsp, hg, ht, hc⟩ := getInstalled_ok_shape env info h
  refine ⟨hc, ?_, ?_, ?_⟩
  · rw [ht, foldl_add_size]
    omega
  · rw [hg]
    have hperm := List.perm_insertionSort byNameLe (dedupByAppid (allGamesFor env sp))
    have hpair : (dedupByAppid (allGamesFor env sp)).Pairwise
        (fun a b => a.appid ≠ b.appid) := by
      rw [dedupByAppid_eq_dedupSeen]
      exact dedupSeen_pairwise [] _
    exact (hperm.pairwise_iff (fun hxy => Ne.symm hxy)).mpr hpair
  · rw [hg]
    exact sortedByName_pairwise _

/-- Claim C3, witness at the concrete two-library environment. -/
theorem c3_witness :
    infoFull.gameCount = infoFull.games.length ∧
    infoFull.totalSize = (infoFull.games.map (fun g => g.sizeOnDisk)).sum ∧
    infoFull.games.Pairwise (fun a b => a.appid ≠ b.appid) ∧
    infoFull.games.Pairwise (fun a b => caseInsensitiveLe a.name b.name) :=
  c3_library_invariants envFull infoFull (by rfl)

/-! Section: Claim C4 -/

/-- Claim C4: the base path is enumerated first, every aggregated record
is the first occurrence of its id in the left-to-right concatenation of
per-library scan results, and every scanned record's id survives into
the aggregate (later duplicates are dropped, not lost ids). -/
theorem c4_first_occurrence_wins (env : Env) (steamPath : String)
    (info : SteamLibraryInfo)
    (hsp : getSteamPath env = .ok (some steamPath))
    (h : getInstalledSteamGames env = .ok info) :
    (getSteamLibraryPaths env steamPath).head? = some steamPath ∧
    (∀ g ∈ info.games,
      (allGamesFor env steamPath).find? (fun x => x.appid == g.appid) = some g) ∧
    (∀ g2 ∈ allGamesFor env steamPath, ∃ g ∈ info.games, g.appid = g2.appid) := by
  obtain ⟨sp, hsp2, hg, -, -⟩ := getInstalled_ok_shape env info h
  have hspe : sp = steamPath := by
    rw [hsp] at hsp2
    exact (Option.some.inj ((Except.ok.injEq _ _).mp hsp2)).symm
  subst hspe
  refine ⟨?_, ?_, ?_⟩
  · by_cases he : env.existsSync (joinP (joinP sp "steamapps") "libraryfolders.vdf") = false
    · simp [getSteamLibraryPaths, he]
    · cases hr : env.readFile (joinP (joinP sp "steamapps") "libraryfolders.vdf") <;>
        simp [getSteamLibraryPaths, he, hr]
  · intro g hgmem
    rw [hg] at hgmem
    have hmem2 : g ∈ dedupByAppid (allGamesFor env sp) :=
      (List.mem_insertionSort byNameLe).mp hgmem
    rw [dedupByAppid_eq_dedupSeen] at hmem2
    exact (dedupSeen_mem_spec [] _ g hmem2).2
  · intro g2 hg2
    have hid : g2.appid ∈ (allGamesFor env sp).map (fun x => x.appid) :=
      List.mem_map.mpr ⟨g2, hg2, rfl⟩
    rcases dedupSeen_appid_covers [] (allGamesFor env sp) g2.appid hid with hs | hd
    · cases hs
    · obtain ⟨g, hgmem, hga⟩ := List.mem_map.mp hd
      refine ⟨g, ?_, hga⟩
      rw [hg]
      refine (List.mem_insertionSort byNameLe).mpr ?_
      rw [dedupByAppid_eq_dedupSeen]
      exact hgmem

/-- Claim C4, witness: in the concrete two-library environment the
duplicate id 570 resolves to the base-library record. -/
theorem c4_witness :
    (allGamesFor envFull "C:\\Steam").find? (fun x => x.appid == game570.appid)
      = some game570 :=
  (c4_first_occurrence_wins envFull "C:\\Steam" infoFull (by rfl) (by rfl)).2.1
    game570 (by decide)

/-! Section: Claim C7 -/

theorem parseManifestFile_not_reserved (env : Env) (lp sp f : String) (g : SteamGame)
    (h : parseManifestFile env lp sp f = some g) :
    g.appid ≠ 228980 ∧ g.appid ≠ 7 := by
  by_cases hex : env.existsSync (joinP sp f) = false
  · exfalso; simp [parseManifestFile, hex] at h
  · cases hr : env.readFile (joinP sp f) with
    | none => exfalso; simp [parseManifestFile, hex, hr] at h
    | some content =>
      cases ha : filenameAppid f with
      | none => exfalso; simp [parseManifestFile, hex, hr, ha] at h
      | some appid =>
        by_cases hres : appid = 228980 ∨ appid = 7
        · exfalso; simp [parseManifestFile, hex, hr, ha, hres] at h
        · cases hn : firstKVMatch "name".data notQuote content.data with
          | none => exfalso; simp [parseManifestFile, hex, hr, ha, hres, hn] at h
          | some nm =>
            cases hd : firstKVMatch "installdir".data notQuote content.data with
            | none => exfalso; simp [parseManifestFile, hex, hr, ha, hres, hn, hd] at h
            | some dir =>
              have hval : parseManifestFile env lp sp f
                  = some { appid := appid
                           name := String.mk nm
                           installDir := joinP (joinP (joinP lp "steamapps") "common")
                               (String.mk dir)
                           sizeOnDisk :=
                             match firstKVMatch "SizeOnDisk".data Char.isDigit content.data with
                             | some x => digitsToNat x
                             | none => 0
                           lastUpdated :=
                             (firstKVMatch "LastUpdated".data Char.isDigit content.data).map
                               digitsToNat
                           state :=
                             (firstKVMatch "StateFlags".data Char.isDigit content.data).map
                               digitsToNat } := by
                simp [parseManifestFile, hex, hr, ha, hres, hn, hd]
              rw [hval] at h
              have hgr := Option.some.inj h
              rw [← hgr]
              exact not_or.mp hres

/-- Claim C7: the reserved ids 228980 and 7 never appear in a library
scan result nor in the aggregated game list. -/
theorem c7_reserved_ids (env : Env) :
    (∀ lp g, g ∈ parseAppManifests env lp → g.appid ≠ 228980 ∧ g.appid ≠ 7) ∧
    (∀ info, getInstalledSteamGames env = .ok info →
      ∀ g ∈ info.games, g.appid ≠ 228980 ∧ g.appid ≠ 7) := by
  have hscan : ∀ lp g, g ∈ parseAppManifests env lp → g.appid ≠ 228980 ∧ g.appid ≠ 7 := by
    intro lp g hmem
    by_cases hex : env.existsSync (joinP lp "steamapps") = false
    · exfalso; simp [parseAppManifests, hex] at hmem
    · cases hr : env.readdir (joinP lp "steamapps") with
      | none => exfalso; simp [parseAppManifests, hex, hr] at hmem
      | some files =>
        have hmem2 : g ∈ parseManifestFiles env lp (joinP lp "steamapps")
            (files.filter isManifestName) := by
          simpa [parseAppManifests, hex, hr] using hmem
        obtain ⟨f, -, hf⟩ := List.mem_filterMap.mp hmem2
        exact parseManifestFile_not_reserved env lp (joinP lp "steamapps") f g hf
  refine ⟨hscan, ?_⟩
  intro info h g hgmem
  obtain ⟨sp, -, hg, -, -⟩ := getInstalled_ok_shape env info h
  rw [hg] at hgmem
  have hmem2 : g ∈ dedupByAppid (allGamesFor env sp) :=
    (List.mem_insertionSort byNameLe).mp hgmem
  have hmem3 : g ∈ allGamesFor env sp := by
    rw [dedupByAppid_eq_dedupSeen] at hmem2
    exact (dedupSeen_sublist [] _).mem hmem2
  obtain ⟨games, hgames, hging⟩ := List.mem_flatten.mp hmem3
  obtain ⟨lp, -, hlp⟩ := List.mem_map.mp hgames
  exact hscan lp g (hlp ▸ hging)

/-- Claim C7, witness: the record scanned from the base library of the
concrete environment carries neither reserved id. -/
theorem c7_witness : game570.appid ≠ 228980 ∧ game570.appid ≠ 7 :=
  (c7_reserved_ids envFull).1 "C:\\Steam" game570 (by decide)

/-! Section: Claim C5 -/

/-- Claim C5, counterexample: `appmanifest_7.acf` is named
`appmanifest_<digits>.acf` and its text contains both required pairs,
yet the scanner yields no application for it (the id is reserved), so
the claim fails as stated. -/
theorem c5_counterexample :
    (firstKVMatch "name".data notQuote
        ("\"name\" \"Steam Client\"\n\"installdir\" \"client\"" : String).data).isSome
      = true ∧
    (firstKVMatch "installdir".data notQuote
        ("\"name\" \"Steam Client\"\n\"installdir\" \"client\"" : String).data).isSome
      = true ∧
    envSeven.readFile "L\\steamapps\\appmanifest_7.acf"
      = some "\"name\" \"Steam Client\"\n\"installdir\" \"client\"" ∧
    parseManifestFile envSeven "L" "L\\steamapps" "appmanifest_7.acf" = none ∧
    parseAppManifests envSeven "L" = [] :=
  ⟨rfl, rfl, rfl, rfl, rfl⟩

/-- Claim C5, amended: for every manifest file named
`appmanifest_<digits>.acf` whose text matches both required field
regexes, and whose digit run is not one of the two reserved ids, the
scanner yields exactly one application with the id from the filename and
the install directory `libraryPath\steamapps\common\<installdir>`. -/
theorem c5_scanner_amended (env : Env) (libraryPath sp : String) (ds : List Char)
    (content : String) (nm dir : List Char)
    (hne : ds ≠ []) (hdig : ∀ c ∈ ds, c.isDigit = true)
    (hex : env.existsSync (joinP sp ("appmanifest_" ++ String.mk ds ++ ".acf")) = true)
    (hread : env.readFile (joinP sp ("appmanifest_" ++ String.mk ds ++ ".acf"))
      = some content)
    (hname : firstKVMatch "name".data notQuote content.data = some nm)
    (hdir : firstKVMatch "installdir".data notQuote content.data = some dir)
    (hres1 : digitsToNat ds ≠ 228980) (hres2 : digitsToNat ds ≠ 7) :
    parseManifestFile env libraryPath sp ("appmanifest_" ++ String.mk ds ++ ".acf")
      = some { appid := digitsToNat ds
               name := String.mk nm
               installDir :=
                 joinP (joinP (joinP libraryPath "steamapps") "common") (String.mk dir)
               sizeOnDisk :=
                 match firstKVMatch "SizeOnDisk".data Char.isDigit content.data with
                 | some x => digitsToNat x
                 | none => 0
               lastUpdated :=
                 (firstKVMatch "LastUpdated".data Char.isDigit content.data).map digitsToNat
               state :=
                 (firstKVMatch "StateFlags".data Char.isDigit content.data).map
                   digitsToNat } := by
  have hstd := filenameAppid_std ds hne hdig
  have hnres : ¬(digitsToNat ds = 228980 ∨ digitsToNat ds = 7) := by
    rintro (hc | hc)
    · exact hres1 hc
    · exact hres2 hc
  simp [parseManifestFile, hex, hread, hstd, hname, hdir, hnres]

/-- Claim C5, witness at the concrete base-library manifest. -/
theorem c5_witness :
    parseManifestFile envFull "C:\\Steam" "C:\\Steam\\steamapps" "appmanifest_570.acf"
      = some game570 := by
  have h := c5_scanner_amended envFull "C:\\Steam" "C:\\Steam\\steamapps" ("570".data)
      "\"name\" \"Dota 2\"\n\"installdir\" \"dota 2 beta\"\n\"SizeOnDisk\" \"100\""
      ("Dota 2".data) ("dota 2 beta".data)
      (by decide) (by decide) (by decide) (by decide) rfl rfl (by decide) (by decide)
  have harg : ("appmanifest_" ++ String.mk ("570".data) ++ ".acf") = "appmanifest_570.acf" :=
    rfl
  rw [harg] at h
  rw [h]
  rfl

/-! Section: Claim C6 -/

/-- Claim C6: a manifest text missing either required field yields no
application regardless of the other fields, while a record with both
required fields is never dropped for an absent or non-numeric optional
field — `SizeOnDisk` defaults to 0 and the other optional fields stay
unset exactly when their digit regex fails to match. -/
theorem c6_required_and_optional_fields (env : Env) (lp sp f content : String) :
    (env.readFile (joinP sp f) = some content →
      (firstKVMatch "name".data notQuote content.data = none ∨
       firstKVMatch "installdir".data notQuote content.data = none) →
      parseManifestFile env lp sp f = none) ∧
    (∀ nm dir appid,
      env.existsSync (joinP sp f) = true →
      env.readFile (joinP sp f) = some content →
      filenameAppid f = some appid →
      appid ≠ 228980 → appid ≠ 7 →
      firstKVMatch "name".data notQuote content.data = some nm →
      firstKVMatch "installdir".data notQuote content.data = some dir →
      parseManifestFile env lp sp f
        = some { appid := appid
                 name := String.mk nm
                 installDir := joinP (joinP (joinP lp "steamapps") "common") (String.mk dir)
                 sizeOnDisk :=
                   match firstKVMatch "SizeOnDisk".data Char.isDigit content.data with
                   | some x => digitsToNat x
                   | none => 0
                 lastUpdated :=
                   (firstKVMatch "LastUpdated".data Char.isDigit content.data).map digitsToNat
                 state :=
                   (firstKVMatch "StateFlags".data Char.isDigit content.data).map
                     digitsToNat }) := by
  constructor
  · intro hread hmiss
    by_cases hex : env.existsSync (joinP sp f) = false
    · simp [parseManifestFile, hex]
    · cases ha : filenameAppid f with
      | none => simp [parseManifestFile, hex, hread, ha]
      | some appid =>
        by_cases hres : appid = 228980 ∨ appid = 7
        · simp [parseManifestFile, hex, hread, ha, hres]
        · rcases hmiss with hm | hm
          · simp [parseManifestFile, hex, hread, ha, hres, hm]
          · cases hn : firstKVMatch "name".data notQuote content.data <;>
              simp [parseManifestFile, hex, hread, ha, hres, hm, hn]
  · intro nm dir appid hex hread ha h1 h2 hn hd
    have hres : ¬(appid = 228980 ∨ appid = 7) := by
      rintro (hc | hc)
      · exact h1 hc
      · exact h2 hc
    simp [parseManifestFile, hex, hread, ha, hres, hn, hd]

/-- Claim C6, witness: a manifest with a non-numeric `SizeOnDisk` still
produces its record, with size 0 and the other optional fields unset. -/
theorem c6_witness :
    firstKVMatch "SizeOnDisk".data Char.isDigit
        ("\"name\" \"Game X\"\n\"installdir\" \"gx\"\n\"SizeOnDisk\" \"abc\"" : String).data
      = none ∧
    parseManifestFile envNonNumeric "L" "L\\steamapps" "appmanifest_99.acf"
      = some game99 := by
  refine ⟨rfl, ?_⟩
  have h := (c6_required_and_optional_fields envNonNumeric "L" "L\\steamapps"
      "appmanifest_99.acf"
      "\"name\" \"Game X\"\n\"installdir\" \"gx\"\n\"SizeOnDisk\" \"abc\"").2
      ("Game X".data) ("gx".data) 99 rfl rfl rfl (by decide) (by decide) rfl rfl
  rw [h]
  rfl

/-! Section: Claim C10 -/

/-- Claim C10: when the scanner produces a record, every field comes
from the leftmost match of its own regex in the manifest text — name,
installdir, SizeOnDisk, LastUpdated and StateFlags independently. -/
theorem c10_first_match_used (env : Env) (lp sp f content : String) (g : SteamGame)
    (hread : env.readFile (joinP sp f) = some content)
    (hp : parseManifestFile env lp sp f = some g) :
    LeftmostCapture "name".data notQuote content.data g.name.data ∧
    (∃ d, LeftmostCapture "installdir".data notQuote content.data d ∧
      g.installDir = joinP (joinP (joinP lp "steamapps") "common") (String.mk d)) ∧
    ((firstKVMatch "SizeOnDisk".data Char.isDigit content.data = none →
        g.sizeOnDisk = 0) ∧
      ∀ ds, firstKVMatch "SizeOnDisk".data Char.isDigit content.data = some ds →
        LeftmostCapture "SizeOnDisk".data Char.isDigit content.data ds ∧
          g.sizeOnDisk = digitsToNat ds) ∧
    ((firstKVMatch "LastUpdated".data Char.isDigit content.data = none →
        g.lastUpdated = none) ∧
      ∀ ds, firstKVMatch "LastUpdated".data Char.isDigit content.data = some ds →
        LeftmostCapture "LastUpdated".data Char.isDigit content.data ds ∧
          g.lastUpdated = some (digitsToNat ds)) ∧
    ((firstKVMatch "StateFlags".data Char.isDigit content.data = none →
        g.state = none) ∧
      ∀ ds, firstKVMatch "StateFlags".data Char.isDigit content.data = some ds →
        LeftmostCapture "StateFlags".data Char.isDigit content.data ds ∧
          g.state = some (digitsToNat ds)) := by
  by_cases hex : env.existsSync (joinP sp f) = false
  · exfalso; simp [parseManifestFile, hex] at hp
  · cases ha : filenameAppid f with
    | none => exfalso; simp [parseManifestFile, hex, hread, ha] at hp
    | some appid =>
      by_cases hres : appid = 228980 ∨ appid = 7
      · exfalso; simp [parseManifestFile, hex, hread, ha, hres] at hp
      · cases hn : firstKVMatch "name".data notQuote content.data with
        | none => exfalso; simp [parseManifestFile, hex, hread, ha, hres, hn] at hp
        | some nm =>
          cases hd : firstKVMatch "installdir".data notQuote content.data with
          | none => exfalso; simp [parseManifestFile, hex, hread, ha, hres, hn, hd] at hp
          | some dir =>
            have hval : parseManifestFile env lp sp f
                = some { appid := appid
                         name := String.mk nm
                         installDir := joinP (joinP (joinP lp "steamapps") "common")
                             (String.mk dir)
                         sizeOnDisk :=
                           match firstKVMatch "SizeOnDisk".data Char.isDigit content.data with
                           | some x => digitsToNat x
                           | none => 0
                         lastUpdated :=
                           (firstKVMatch "LastUpdated".data Char.isDigit content.data).map
                             digitsToNat
                         state :=
                           (firstKVMatch "StateFlags".data Char.isDigit content.data).map
                             digitsToNat } := by
              simp [parseManifestFile, hex, hread, ha, hres, hn, hd]
            rw [hval] at hp
            have hgr := (Option.some.inj hp).symm
            subst hgr
            refine ⟨?_, ?_, ⟨?_, ?_⟩, ⟨?_, ?_⟩, ⟨?_, ?_⟩⟩
            · exact (firstKVMatch_iff_leftmost _ _ content.data nm).mp hn
            · exact ⟨dir, (firstKVMatch_iff_leftmost _ _ content.data dir).mp hd, rfl⟩
            · intro hsz; simp [hsz]
            · intro ds hds
              exact ⟨(firstKVMatch_iff_leftmost _ _ content.data ds).mp hds, by simp [hds]⟩
            · intro hlu; simp [hlu]
            · intro ds hds
              exact ⟨(firstKVMatch_iff_leftmost _ _ content.data ds).mp hds, by simp [hds]⟩
            · intro hst; simp [hst]
            · intro ds hds
              exact ⟨(firstKVMatch_iff_leftmost _ _ content.data ds).mp hds, by simp [hds]⟩

/-- Claim C10, witness: with two `name` and two `installdir` pairs in
one manifest, the record uses the first of each. -/
theorem c10_witness :
    parseManifestFile envTwoNames "L" "L\\steamapps" "appmanifest_50.acf"
      = some game50 ∧
    LeftmostCapture "name".data notQuote
      ("\"name\" \"First\"\n\"name\" \"Second\"\n\"installdir\" \"one\"\n\"installdir\" \"two\""
        : String).data ("First" : String).data := by
  have hp : parseManifestFile envTwoNames "L" "L\\steamapps" "appmanifest_50.acf"
      = some game50 := rfl
  refine ⟨hp, ?_⟩
  exact (c10_first_match_used envTwoNames "L" "L\\steamapps" "appmanifest_50.acf"
      "\"name\" \"First\"\n\"name\" \"Second\"\n\"installdir\" \"one\"\n\"installdir\" \"two\""
      game50 rfl hp).1

end SteamWarmind
